import Mathlib

/-
Shallow embedding of `clients/filesystem-fuse/src/open_dal_filesystem.rs`:
the OpenDAL-backed `PathFileSystem` adapter of the gravitino FUSE client.

Paths and storage keys are modelled as `List Char` (the adapter works on
the `to_string_lossy` rendering of the path).  Machine integers are
modelled as `Nat` with an explicit `% 2^w` where the Rust code casts or
may overflow.  The external OpenDAL operator is modelled twice:
  * parametrically, as a record `Operator` of response functions, for the
    claims that are universally quantified over backend behaviour; and
  * concretely, as a key -> object map `BackendState`, for the claims that
    need the backend's state to evolve (create-then-stat, remove).
-/

/-- Paths and storage keys: the character sequence of the Rust `String`. -/
abbrev PathStr := List Char

/-- File kinds used by the adapter (`fuse3::FileType`): only the two
constructors the adapter ever produces. -/
inductive FileType where
  | RegularFile
  | Directory
deriving DecidableEq, Repr

/-- POSIX error number (`fuse3::Errno`), carrying the raw `libc` code. -/
structure Errno where
  code : Nat
deriving DecidableEq, Repr

/-- Models `Errno::from(raw)`. -/
def Errno.ofRaw (n : Nat) : Errno := ⟨n⟩

/-- Raw Linux errno value of `libc::EOPNOTSUPP`. -/
def libc.EOPNOTSUPP : Nat := 95

/-- Raw Linux errno value of `libc::EISDIR`. -/
def libc.EISDIR : Nat := 21

/-- Raw Linux errno value of `libc::ENOENT`. -/
def libc.ENOENT : Nat := 2

/-- Raw Linux errno value of `libc::EACCES`. -/
def libc.EACCES : Nat := 13

/-- Raw Linux errno value of `libc::EEXIST`. -/
def libc.EEXIST : Nat := 17

/-- Raw Linux errno value of `libc::ENOTDIR`. -/
def libc.ENOTDIR : Nat := 20

/-- Raw Linux errno value of `libc::EBUSY`. -/
def libc.EBUSY : Nat := 16

/-- Backend error taxonomy, modelling `opendal::ErrorKind`. -/
inductive ErrorKind where
  | Unexpected
  | Unsupported
  | ConfigInvalid
  | NotFound
  | PermissionDenied
  | IsADirectory
  | NotADirectory
  | AlreadyExists
  | IsSameFile
  | ConditionNotMatch
  | RangeNotSatisfied
  | RateLimited
deriving DecidableEq, Repr

/-- Backend error, modelling `opendal::Error`: a kind plus a diagnostic
message the mapper never inspects. -/
structure OError where
  kind : ErrorKind
  message : String
deriving DecidableEq, Repr

/-- Backend entry mode, modelling `opendal::EntryMode`. -/
inductive EntryMode where
  | FILE
  | DIR
  | Unknown
deriving DecidableEq, Repr

/-- Backend metadata record, modelling the fields of `opendal::Metadata`
consumed by the adapter: `content_length()`, `last_modified()` (converted
to a timestamp, here a `Nat`), and `mode()`. -/
structure Metadata where
  content_length : Nat
  last_modified : Option Nat
  mode : EntryMode
deriving DecidableEq, Repr

/-- The slice of the `FileStat` record the adapter reads or writes
(`crate::filesystem::FileStat`): path, size, kind and the three
timestamps, timestamps as `Nat` seconds. -/
structure FileStat where
  path : PathStr
  size : Nat
  kind : FileType
  ctime : Nat
  atime : Nat
  mtime : Nat
deriving DecidableEq, Repr

/-- Modelled from the spec: `FileStat::new_file_filestat_with_path` lives
in `filesystem.rs`, which is not under `src/`.  Per its name and the spec
(FileStat is "constructed fresh per call"), it builds a fresh stat record
for the given path and size; every use site in this file immediately
overwrites all fields other than the path via the metadata translator, so
the defaults chosen for the remaining fields are never observable. -/
def FileStat.new_file_filestat_with_path (path : PathStr) (size : Nat) : FileStat :=
  { path := path, size := size, kind := FileType.RegularFile,
    ctime := 0, atime := 0, mtime := 0 }

/-- Translates `fn opendal_error_to_errno(err: opendal::Error) -> Errno`
(the diagnostic log emission carries no semantic content and is dropped). -/
def opendal_error_to_errno (err : OError) : Errno :=
  match err.kind with
  | ErrorKind.Unsupported => Errno.ofRaw libc.EOPNOTSUPP
  | ErrorKind.IsADirectory => Errno.ofRaw libc.EISDIR
  | ErrorKind.NotFound => Errno.ofRaw libc.ENOENT
  | ErrorKind.PermissionDenied => Errno.ofRaw libc.EACCES
  | ErrorKind.AlreadyExists => Errno.ofRaw libc.EEXIST
  | ErrorKind.NotADirectory => Errno.ofRaw libc.ENOTDIR
  | ErrorKind.RateLimited => Errno.ofRaw libc.EBUSY
  | _ => Errno.ofRaw libc.ENOENT

/-- Translates `fn opendal_filemode_to_filetype(mode: EntryMode) -> FileType`. -/
def opendal_filemode_to_filetype (mode : EntryMode) : FileType :=
  match mode with
  | EntryMode.DIR => FileType.Directory
  | _ => FileType.RegularFile

/-- Translates `OpenDalFileSystem::opendal_meta_to_file_stat`.  The Rust
method mutates `file_stat` in place; here the updated record is returned.
`SystemTime::now()` is passed in explicitly as `now`. -/
def OpenDalFileSystem.opendal_meta_to_file_stat (now : Nat) (meta : Metadata)
    (file_stat : FileStat) : FileStat :=
  let mtime := meta.last_modified.getD now
  { file_stat with
    size := meta.content_length,
    kind := opendal_filemode_to_filetype meta.mode,
    ctime := mtime,
    atime := now,
    mtime := mtime }

/-- Translates `fn build_dir_path(path: &Path) -> String`: appends the
separator unless the rendered path already ends with one. -/
def build_dir_path (path : PathStr) : PathStr :=
  let dir_path := path
  if dir_path.getLast? ≠ some '/' then dir_path ++ ['/'] else dir_path

/-- Models `std::path::PathBuf::push` on rendered paths: an absolute
argument replaces `self`; otherwise the argument is appended, inserting a
separator when `self` is nonempty and lacks a trailing one. -/
def pathbuf_push (p : PathStr) (name : PathStr) : PathStr :=
  if name.head? = some '/' then name
  else if p = [] ∨ p.getLast? = some '/' then p ++ name
  else p ++ '/' :: name

/-- Models `opendal::Reader` (external crate): a positioned byte stream
over an object's content, able to be in a failing state.  A ranged read
beyond the end of the stream is an out-of-range error; a range reaching
past the end is truncated at end-of-stream. -/
structure OReader where
  content : List Nat
  fail : Option OError
deriving DecidableEq, Repr

/-- Models `opendal::Reader::read(start..stop)`. -/
def OReader.read (r : OReader) (start stop : Nat) : Except OError (List Nat) :=
  match r.fail with
  | some e => Except.error e
  | none =>
    if r.content.length < start then
      Except.error { kind := ErrorKind.RangeNotSatisfied, message := "read out of range" }
    else
      Except.ok ((r.content.take stop).drop start)

/-- Models `opendal::Writer` (external crate): a sequential, append-only
stream buffering the bytes written since it was opened against `key`; the
object is committed at close.  `fail` models a stream in a failing state. -/
structure OWriter where
  key : PathStr
  buffer : List Nat
  fail : Option OError
deriving DecidableEq, Repr

/-- Models `opendal::Writer::write(data)`: appends to the stream. -/
def OWriter.write (w : OWriter) (data : List Nat) : Except OError OWriter :=
  match w.fail with
  | some e => Except.error e
  | none => Except.ok { w with buffer := w.buffer ++ data }

/-- Translates `struct FileReaderImpl { reader: opendal::Reader }`. -/
structure FileReaderImpl where
  reader : OReader
deriving DecidableEq, Repr

/-- Translates `FileReaderImpl::read(offset: u64, size: u32)`: computes
`end = offset + size as u64` (u64 arithmetic, hence `% 2^64`) and asks the
backend stream for the range `offset..end`. -/
def FileReaderImpl.read (f : FileReaderImpl) (offset : Nat) (size : Nat) :
    Except Errno (List Nat) :=
  let endv := (offset + size) % 2 ^ 64
  match f.reader.read offset endv with
  | Except.error e => Except.error (opendal_error_to_errno e)
  | Except.ok v => Except.ok v

/-- Companion of `FileReaderImpl.read` recording the byte range it passes
to the backend `read` call: `(offset, end)` with `end = offset + size`
computed in u64, exactly as in the source. -/
def FileReaderImpl.requested_range (offset size : Nat) : Nat × Nat :=
  (offset, (offset + size) % 2 ^ 64)

/-- Translates `struct FileWriterImpl { writer: opendal::Writer }`. -/
structure FileWriterImpl where
  writer : OWriter
deriving DecidableEq, Repr

/-- Translates `FileWriterImpl::write(_offset: u64, data: &[u8]) -> Result<u32>`:
writes `data` to the backend stream (the offset is unused in the source)
and returns `data.len() as u32`, i.e. the length truncated to u32.  The
mutated handle is returned alongside the count. -/
def FileWriterImpl.write (f : FileWriterImpl) (_offset : Nat) (data : List Nat) :
    Except Errno (Nat × FileWriterImpl) :=
  match f.writer.write data with
  | Except.error e => Except.error (opendal_error_to_errno e)
  | Except.ok w2 => Except.ok (data.length % 2 ^ 32, { f with writer := w2 })

/-- Modelled from the spec: `OpenFileFlags` lives in `opened_file.rs`,
which is not under `src/`.  Per the spec it is "a bitset of intents
{read, write, create, append, truncate}"; the adapter consumes it only
through the five predicates, so it is modelled as that tuple of booleans. -/
structure OpenFileFlags where
  is_read : Bool
  is_write : Bool
  is_create : Bool
  is_append : Bool
  is_truncate : Bool
deriving DecidableEq, Repr

/-- Translates the slice of `OpenedFile` (`opened_file.rs`) the adapter
touches: the stat record plus the optional reader and writer handles. -/
structure OpenedFile where
  stat : FileStat
  reader : Option FileReaderImpl
  writer : Option FileWriterImpl
deriving DecidableEq, Repr

/-- Modelled from the spec: `OpenedFile::new(stat)` lives in
`opened_file.rs`, which is not under `src/`.  Per the spec invariant
("reader present iff the open request included a read intent; writer
present iff ... write/create/append/truncate intent") a freshly built
handle has no streams attached; the adapter then attaches them by direct
field assignment. -/
def OpenedFile.new (st : FileStat) : OpenedFile :=
  { stat := st, reader := none, writer := none }

/-- One backend listing entry, modelling `opendal::Entry`: its `name()`
and its `metadata()`. -/
structure OEntry where
  name : PathStr
  metadata : Metadata
deriving DecidableEq, Repr

/-- Parametric model of the external `opendal::Operator`: one response
function per capability the adapter consumes.  This stateless record
covers the claims quantified over backend behaviour; state evolution is
modelled separately by `BackendState`. -/
structure Operator where
  stat : PathStr → Except OError Metadata
  list : PathStr → Except OError (List OEntry)
  reader_with : PathStr → Except OError OReader
  writer_with : PathStr → Except OError OWriter
  remove : List PathStr → Except OError Unit

/-- Translates `OpenDalFileSystem::stat`: look the path up as a file key;
on `NotFound` retry with the directory key; translate the metadata of the
first success, or map the decisive error. -/
def OpenDalFileSystem.stat (op : Operator) (now : Nat) (path : PathStr) :
    Except Errno FileStat :=
  let file_name := path
  let meta_result := op.stat file_name
  let metaE : Except Errno Metadata :=
    match meta_result with
    | Except.ok meta => Except.ok meta
    | Except.error err =>
      if err.kind = ErrorKind.NotFound then
        let dir_name := build_dir_path path
        match op.stat dir_name with
        | Except.ok m => Except.ok m
        | Except.error e => Except.error (opendal_error_to_errno e)
      else
        Except.error (opendal_error_to_errno err)
  match metaE with
  | Except.error e => Except.error e
  | Except.ok meta =>
    let file_stat := FileStat.new_file_filestat_with_path path 0
    Except.ok (OpenDalFileSystem.opendal_meta_to_file_stat now meta file_stat)

/-- Call-trace companion of `OpenDalFileSystem.stat`: the keys passed to
`op.stat`, in order, following exactly the branches of the source. -/
def OpenDalFileSystem.stat_probes (op : Operator) (path : PathStr) : List PathStr :=
  match op.stat path with
  | Except.ok _ => [path]
  | Except.error err =>
    if err.kind = ErrorKind.NotFound then [path, build_dir_path path]
    else [path]

/-- Collects a list of fallible results, as the source's
`.collect::<Result<Vec<FileStat>>>()` does: first error wins, otherwise
all values in order. -/
def collectResults {α : Type} : List (Except Errno α) → Except Errno (List α)
  | [] => Except.ok []
  | x :: xs =>
    match x with
    | Except.error e => Except.error e
    | Except.ok v =>
      match collectResults xs with
      | Except.error e => Except.error e
      | Except.ok vs => Except.ok (v :: vs)

/-- Translates `OpenDalFileSystem::read_dir`: list the directory key, and
for each entry build the child path (`PathBuf::push`) and translate its
metadata. -/
def OpenDalFileSystem.read_dir (op : Operator) (now : Nat) (path : PathStr) :
    Except Errno (List FileStat) :=
  let dir_name := build_dir_path path
  match op.list dir_name with
  | Except.error err => Except.error (opendal_error_to_errno err)
  | Except.ok entries =>
    collectResults (entries.map (fun entry =>
      let p := pathbuf_push path entry.name
      let file_stat := FileStat.new_file_filestat_with_path p 0
      Except.ok (OpenDalFileSystem.opendal_meta_to_file_stat now entry.metadata file_stat)))

/-- Outcome of an operation whose source contains a `debug_assert!`: the
assertion, when violated, is fatal (modelled with assertions enabled, as
the spec describes it). -/
inductive RResult (α : Type) where
  | ok (v : α)
  | err (e : Errno)
  | panicked
deriving DecidableEq, Repr

/-- Translates `OpenDalFileSystem::open_file`: stat the path, assert the
kind is `RegularFile`, then attach a reader when `flags.is_read()` and a
writer when any of the write-intent flags holds. -/
def OpenDalFileSystem.open_file (op : Operator) (now : Nat) (path : PathStr)
    (flags : OpenFileFlags) : RResult OpenedFile :=
  match OpenDalFileSystem.stat op now path with
  | Except.error e => RResult.err e
  | Except.ok file_stat =>
    if file_stat.kind ≠ FileType.RegularFile then
      RResult.panicked
    else
      let file := OpenedFile.new file_stat
      let file_name := path
      let step1 : Except Errno OpenedFile :=
        if flags.is_read then
          match op.reader_with file_name with
          | Except.error err => Except.error (opendal_error_to_errno err)
          | Except.ok reader => Except.ok { file with reader := some { reader := reader } }
        else Except.ok file
      match step1 with
      | Except.error e => RResult.err e
      | Except.ok file1 =>
        if flags.is_write || flags.is_create || flags.is_append || flags.is_truncate then
          match op.writer_with file_name with
          | Except.error err => RResult.err (opendal_error_to_errno err)
          | Except.ok writer => RResult.ok { file1 with writer := some { writer := writer } }
        else RResult.ok file1

/-- Translates `OpenDalFileSystem::remove_dir`: a single `op.remove` call
on the singleton list holding the directory key. -/
def OpenDalFileSystem.remove_dir (op : Operator) (path : PathStr) : Except Errno Unit :=
  let dir_name := build_dir_path path
  match op.remove [dir_name] with
  | Except.ok u => Except.ok u
  | Except.error e => Except.error (opendal_error_to_errno e)

/-- Stored object in the concrete backend model: its bytes and its
last-modified timestamp. -/
structure ObjData where
  content : List Nat
  lastModified : Option Nat
deriving DecidableEq, Repr

/-- Concrete model of the backend's flat key namespace (spec section 6):
an association list from storage keys to objects; the first binding for a
key wins. -/
structure BackendState where
  objects : List (PathStr × ObjData)
deriving DecidableEq, Repr

/-- Looks a key up in the concrete backend model. -/
def BackendState.lookupKey (s : BackendState) (k : PathStr) : Option ObjData :=
  (s.objects.find? (fun p => p.1 == k)).map (fun p => p.2)

/-- Binds (or overwrites) a key in the concrete backend model. -/
def BackendState.insertObj (s : BackendState) (k : PathStr) (o : ObjData) : BackendState :=
  { objects := (k, o) :: s.objects }

/-- Removes every listed key from the concrete backend model; keys absent
from the state are ignored (removal never fails in the model, matching
object-store delete semantics). -/
def BackendState.removeKeys (s : BackendState) (keys : List PathStr) : BackendState :=
  { objects := s.objects.filter (fun p => p.1 ∉ keys) }

/-- Concrete `stat(key)` of the backend model: `NotFound` when the key is
unbound, otherwise metadata whose mode is `DIR` exactly when the key ends
with the separator (the directory-key convention). -/
def BackendState.modelStat (s : BackendState) (k : PathStr) : Except OError Metadata :=
  match s.lookupKey k with
  | none => Except.error { kind := ErrorKind.NotFound, message := "key not found" }
  | some o =>
    Except.ok
      { content_length := o.content.length,
        last_modified := o.lastModified,
        mode := if k.getLast? = some '/' then EntryMode.DIR else EntryMode.FILE }

/-- Concrete `list(dir_key)` of the backend model: one entry per bound key
that strictly extends `dirKey`, named by the remainder. -/
def BackendState.modelList (s : BackendState) (dirKey : PathStr) :
    Except OError (List OEntry) :=
  Except.ok ((s.objects.filter
      (fun p => dirKey.isPrefixOf p.1 ∧ p.1 ≠ dirKey)).map
    (fun p =>
      { name := p.1.drop dirKey.length,
        metadata :=
          { content_length := p.2.content.length,
            last_modified := p.2.lastModified,
            mode := if p.1.getLast? = some '/' then EntryMode.DIR else EntryMode.FILE } }))

/-- The stateless `Operator` view of a concrete backend state: readers see
the current object bytes, writers open fresh append buffers, and `remove`
always reports success (its state effect is modelled by
`BackendState.removeKeys` in the stateful operations below). -/
def BackendState.modelOperator (s : BackendState) : Operator :=
  { stat := fun k => s.modelStat k,
    list := fun k => s.modelList k,
    reader_with := fun k =>
      match s.lookupKey k with
      | none => Except.error { kind := ErrorKind.NotFound, message := "key not found" }
      | some o => Except.ok { content := o.content, fail := none },
    writer_with := fun k => Except.ok { key := k, buffer := [], fail := none },
    remove := fun _ => Except.ok () }

/-- Models `opendal::Writer::close()` against the concrete backend state:
commits the buffered bytes as the object bound to the writer's key,
stamped with the current time. -/
def OWriter.closeCommit (w : OWriter) (s : BackendState) (now : Nat) :
    Except OError BackendState :=
  match w.fail with
  | some e => Except.error e
  | none => Except.ok (s.insertObj w.key { content := w.buffer, lastModified := some now })

/-- Translates `OpenDalFileSystem::create_file` against the concrete
backend model: open a writer on the file key, immediately close it
(committing a zero-length object), then delegate to `open_file` on the
resulting state. -/
def OpenDalFileSystem.create_fileS (s : BackendState) (now : Nat) (path : PathStr)
    (flags : OpenFileFlags) : RResult (OpenedFile × BackendState) :=
  let file_name := path
  match (s.modelOperator).writer_with file_name with
  | Except.error err => RResult.err (opendal_error_to_errno err)
  | Except.ok writer =>
    match writer.closeCommit s now with
    | Except.error err => RResult.err (opendal_error_to_errno err)
    | Except.ok s2 =>
      match OpenDalFileSystem.open_file s2.modelOperator now path flags with
      | RResult.ok file => RResult.ok (file, s2)
      | RResult.err e => RResult.err e
      | RResult.panicked => RResult.panicked

/-- Translates `OpenDalFileSystem::remove_dir` against the concrete
backend model: one removal of the singleton directory key, whose state
effect is deleting exactly that key. -/
def OpenDalFileSystem.remove_dirS (s : BackendState) (path : PathStr) :
    Except Errno (Unit × BackendState) :=
  let dir_name := build_dir_path path
  Except.ok ((), s.removeKeys [dir_name])

/-- C10: `build_dir_path` returns the path unchanged when it already ends
with the separator, and otherwise appends exactly one separator; its
result always ends with the separator, and it is idempotent. -/
theorem build_dir_path_spec (path : PathStr) :
    (path.getLast? = some '/' → build_dir_path path = path) ∧
    (path.getLast? ≠ some '/' → build_dir_path path = path ++ ['/']) ∧
    (build_dir_path path).getLast? = some '/' ∧
    build_dir_path (build_dir_path path) = build_dir_path path := by
  by_cases h : path.getLast? = some '/'
  · refine ⟨fun _ => by simp [build_dir_path, h], fun hc => absurd h hc, ?_, ?_⟩
    · simp [build_dir_path, h]
    · simp [build_dir_path, h]
  · have h2 : (path ++ ['/']).getLast? = some '/' := by
      simp [List.getLast?_concat]
    refine ⟨fun hc => absurd hc h, fun _ => by simp [build_dir_path, h], ?_, ?_⟩
    · simp [build_dir_path, h]
    · simp [build_dir_path, h, h2]

/-- Witness for `build_dir_path_spec` at the concrete path "/a". -/
theorem build_dir_path_spec_witness :
    build_dir_path ['/', 'a'] = ['/', 'a'] ++ ['/'] ∧
    build_dir_path (build_dir_path ['/', 'a']) = build_dir_path ['/', 'a'] :=
  ⟨(build_dir_path_spec ['/', 'a']).2.1 (by decide),
   (build_dir_path_spec ['/', 'a']).2.2.2⟩

/-- C1: `stat` probes the file key first and returns its translated stat
on success; a NotFound on the file key triggers exactly one retry on the
directory key (returning its translated stat or its mapped error); any
other first-probe error is mapped and returned with no directory retry. -/
theorem stat_file_first_then_dir_retry (op : Operator) (now : Nat) (path : PathStr) :
    (∀ meta, op.stat path = Except.ok meta →
        OpenDalFileSystem.stat op now path =
          Except.ok (OpenDalFileSystem.opendal_meta_to_file_stat now meta
            (FileStat.new_file_filestat_with_path path 0)) ∧
        OpenDalFileSystem.stat_probes op path = [path]) ∧
    (∀ err, op.stat path = Except.error err → err.kind = ErrorKind.NotFound →
        (∀ meta, op.stat (build_dir_path path) = Except.ok meta →
            OpenDalFileSystem.stat op now path =
              Except.ok (OpenDalFileSystem.opendal_meta_to_file_stat now meta
                (FileStat.new_file_filestat_with_path path 0))) ∧
        (∀ e2, op.stat (build_dir_path path) = Except.error e2 →
            OpenDalFileSystem.stat op now path =
              Except.error (opendal_error_to_errno e2)) ∧
        OpenDalFileSystem.stat_probes op path = [path, build_dir_path path]) ∧
    (∀ err, op.stat path = Except.error err → err.kind ≠ ErrorKind.NotFound →
        OpenDalFileSystem.stat op now path = Except.error (opendal_error_to_errno err) ∧
        OpenDalFileSystem.stat_probes op path = [path]) := by
  refine ⟨?_, ?_, ?_⟩
  · intro meta h
    constructor
    · simp [OpenDalFileSystem.stat, h]
    · simp [OpenDalFileSystem.stat_probes, h]
  · intro err h hk
    refine ⟨?_, ?_, ?_⟩
    · intro meta h2
      simp [OpenDalFileSystem.stat, h, hk, h2]
    · intro e2 h2
      simp [OpenDalFileSystem.stat, h, hk, h2]
    · simp [OpenDalFileSystem.stat_probes, h, hk]
  · intro err h hk
    constructor
    · simp [OpenDalFileSystem.stat, h, hk]
    · simp [OpenDalFileSystem.stat_probes, h, hk]

/-- Directory metadata returned by the concrete operators used in
witnesses. -/
def dirMetaW : Metadata :=
  { content_length := 0, last_modified := some 5, mode := EntryMode.DIR }

/-- Concrete operator for the stat witness: every file key is NotFound,
every directory key resolves to directory metadata. -/
def opC1 : Operator :=
  { stat := fun k =>
      if k.getLast? = some '/' then Except.ok dirMetaW
      else Except.error { kind := ErrorKind.NotFound, message := "no file" },
    list := fun _ => Except.ok [],
    reader_with := fun _ => Except.error { kind := ErrorKind.NotFound, message := "no file" },
    writer_with := fun k => Except.ok { key := k, buffer := [], fail := none },
    remove := fun _ => Except.ok () }

/-- Witness for `stat_file_first_then_dir_retry`: on "/a" the file probe
is NotFound, the directory retry succeeds, both keys are probed in order. -/
theorem stat_file_first_then_dir_retry_witness :
    OpenDalFileSystem.stat opC1 7 ['/', 'a'] =
      Except.ok (OpenDalFileSystem.opendal_meta_to_file_stat 7 dirMetaW
        (FileStat.new_file_filestat_with_path ['/', 'a'] 0)) ∧
    OpenDalFileSystem.stat_probes opC1 ['/', 'a'] = [['/', 'a'], ['/', 'a', '/']] := by
  have h := (stat_file_first_then_dir_retry opC1 7 ['/', 'a']).2.1
    { kind := ErrorKind.NotFound, message := "no file" } rfl rfl
  exact ⟨h.1 dirMetaW rfl, h.2.2⟩

/-- Helper: collecting a list of always-ok results yields the list of
their values. -/
theorem collectResults_map_ok {α β : Type} (f : α → β) (l : List α) :
    collectResults (l.map (fun a => Except.ok (f a))) = Except.ok (l.map f) := by
  induction l with
  | nil => rfl
  | cons x xs ih => simp [collectResults, ih]

/-- C5: when the backend lists the directory key successfully, `read_dir`
returns exactly one translated stat per entry, in listing order, each with
path equal to the input path joined with the entry name. -/
theorem read_dir_entries_spec (op : Operator) (now : Nat) (path : PathStr)
    (entries : List OEntry)
    (h : op.list (build_dir_path path) = Except.ok entries) :
    OpenDalFileSystem.read_dir op now path =
      Except.ok (entries.map (fun entry =>
        OpenDalFileSystem.opendal_meta_to_file_stat now entry.metadata
          (FileStat.new_file_filestat_with_path (pathbuf_push path entry.name) 0))) ∧
    ∀ stats, OpenDalFileSystem.read_dir op now path = Except.ok stats →
      stats.length = entries.length ∧
      ∀ i : Nat, (stats[i]?).map (fun st => st.path) =
        (entries[i]?).map (fun e => pathbuf_push path e.name) := by
  have hmain : OpenDalFileSystem.read_dir op now path =
      Except.ok (entries.map (fun entry =>
        OpenDalFileSystem.opendal_meta_to_file_stat now entry.metadata
          (FileStat.new_file_filestat_with_path (pathbuf_push path entry.name) 0))) := by
    simp [OpenDalFileSystem.read_dir, h, collectResults_map_ok]
  refine ⟨hmain, ?_⟩
  intro stats hs
  rw [hmain] at hs
  injection hs with hs2
  subst hs2
  constructor
  · simp
  · intro i
    simp only [List.getElem?_map, Option.map_map]
    cases hi : entries[i]? with
    | none => rfl
    | some e => rfl

/-- Concrete operator for the read_dir witness: listing any key returns
two entries, a file and a subdirectory. -/
def opC5 : Operator :=
  { stat := fun _ => Except.error { kind := ErrorKind.NotFound, message := "no file" },
    list := fun _ => Except.ok
      [{ name := ['b'],
         metadata := { content_length := 3, last_modified := some 9, mode := EntryMode.FILE } },
       { name := ['c', '/'],
         metadata := { content_length := 0, last_modified := none, mode := EntryMode.DIR } }],
    reader_with := fun _ => Except.error { kind := ErrorKind.NotFound, message := "no file" },
    writer_with := fun k => Except.ok { key := k, buffer := [], fail := none },
    remove := fun _ => Except.ok () }

/-- Witness for `read_dir_entries_spec` on "/a" with two listed entries:
two stats come back, in order, with the joined child paths. -/
theorem read_dir_entries_spec_witness :
    (∃ stats, OpenDalFileSystem.read_dir opC5 7 ['/', 'a'] = Except.ok stats ∧
      stats.length = 2 ∧
      (stats[0]?).map (fun st => st.path) = some ['/', 'a', '/', 'b'] ∧
      (stats[1]?).map (fun st => st.path) = some ['/', 'a', '/', 'c', '/']) := by
  have h := read_dir_entries_spec opC5 7 ['/', 'a'] _ rfl
  refine ⟨_, h.1, ?_⟩
  have h2 := h.2 _ h.1
  refine ⟨h2.1, ?_, ?_⟩
  · rw [h2.2 0]
    rfl
  · rw [h2.2 1]
    rfl

/-- C3: `open_file` propagates a failing `stat`; a resolved kind other
than `RegularFile` trips the fatal assertion (modelled with debug
assertions enabled); and a successfully opened handle has a reader exactly
when `flags.is_read()` holds and a writer exactly when one of the
write/create/append/truncate intents holds. -/
theorem open_file_flags_spec (op : Operator) (now : Nat) (path : PathStr)
    (flags : OpenFileFlags) :
    (∀ e, OpenDalFileSystem.stat op now path = Except.error e →
        OpenDalFileSystem.open_file op now path flags = RResult.err e) ∧
    (∀ st, OpenDalFileSystem.stat op now path = Except.ok st →
        st.kind ≠ FileType.RegularFile →
        OpenDalFileSystem.open_file op now path flags = RResult.panicked) ∧
    (∀ file, OpenDalFileSystem.open_file op now path flags = RResult.ok file →
        file.stat.kind = FileType.RegularFile ∧
        file.reader.isSome = flags.is_read ∧
        file.writer.isSome =
          (flags.is_write || flags.is_create || flags.is_append || flags.is_truncate)) := by
  refine ⟨?_, ?_, ?_⟩
  · intro e he
    simp [OpenDalFileSystem.open_file, he]
  · intro st hst hk
    simp [OpenDalFileSystem.open_file, hst, hk]
  · intro file hf
    unfold OpenDalFileSystem.open_file at hf
    cases hstat : OpenDalFileSystem.stat op now path <;> rw [hstat] at hf
    case error e => exact absurd hf (by simp)
    case ok st =>
      by_cases hk : st.kind = FileType.RegularFile <;>
        cases hr : flags.is_read <;>
        cases hrw : op.reader_with path <;>
        cases hww : op.writer_with path <;>
        cases hw1 : flags.is_write <;>
        cases hw2 : flags.is_create <;>
        cases hw3 : flags.is_append <;>
        cases hw4 : flags.is_truncate <;>
        simp_all [OpenedFile.new] <;>
        (subst hf; simp_all)

/-- File metadata returned by the concrete operator of the open_file
witness. -/
def fileMetaW : Metadata :=
  { content_length := 42, last_modified := some 1000, mode := EntryMode.FILE }

/-- Concrete operator for the open_file witness: every key stats as a
42-byte regular file and opens readers and writers successfully. -/
def opC3 : Operator :=
  { stat := fun _ => Except.ok fileMetaW,
    list := fun _ => Except.ok [],
    reader_with := fun _ => Except.ok { content := [1, 2, 3], fail := none },
    writer_with := fun k => Except.ok { key := k, buffer := [], fail := none },
    remove := fun _ => Except.ok () }

/-- Flags requesting only read. -/
def flagsReadOnly : OpenFileFlags :=
  { is_read := true, is_write := false, is_create := false,
    is_append := false, is_truncate := false }

/-- The handle `open_file` yields on the witness operator under read-only
flags: reader attached, writer unset. -/
def openedC3 : OpenedFile :=
  { stat := { path := ['/', 'a'], size := 42, kind := FileType.RegularFile,
              ctime := 1000, atime := 7, mtime := 1000 },
    reader := some { reader := { content := [1, 2, 3], fail := none } },
    writer := none }

/-- Witness for `open_file_flags_spec`: read-only flags yield a handle
with a reader and no writer. -/
theorem open_file_flags_spec_witness :
    OpenDalFileSystem.open_file opC3 7 ['/', 'a'] flagsReadOnly = RResult.ok openedC3 ∧
    openedC3.reader.isSome = flagsReadOnly.is_read ∧
    openedC3.writer.isSome = (flagsReadOnly.is_write || flagsReadOnly.is_create ||
      flagsReadOnly.is_append || flagsReadOnly.is_truncate) := by
  have h := (open_file_flags_spec opC3 7 ['/', 'a'] flagsReadOnly).2.2 openedC3 (by rfl)
  exact ⟨by rfl, h.2.1, h.2.2⟩

/-- Helper: removing a set of keys leaves the binding of every other key
untouched. -/
theorem find?_key_filter_removed (l : List (PathStr × ObjData)) (keys : List PathStr)
    (k : PathStr) (h : k ∉ keys) :
    (l.filter (fun p => p.1 ∉ keys)).find? (fun p => p.1 == k) =
      l.find? (fun p => p.1 == k) := by
  induction l with
  | nil => rfl
  | cons p rest ih =>
    rw [List.filter_cons]
    by_cases hp : p.1 ∈ keys
    · have hne : (p.1 == k) = false := by
        cases hbk : p.1 == k
        · rfl
        · exact absurd (eq_of_beq hbk ▸ hp) h
      rw [if_neg (by simpa using hp), List.find?_cons_of_neg _ (by simp [hne]), ih]
    · rw [if_pos (by simpa using hp)]
      cases hbk : p.1 == k
      · rw [List.find?_cons_of_neg _ (by simp [hbk]),
          List.find?_cons_of_neg _ (by simp [hbk]), ih]
      · rw [@List.find?_cons_of_pos _ (fun q => q.1 == k) p _ hbk,
          @List.find?_cons_of_pos _ (fun q => q.1 == k) p _ hbk]

/-- Helper: removing a set of keys leaves the binding of every other key
untouched. -/
theorem lookupKey_removeKeys_ne (s : BackendState) (keys : List PathStr) (k : PathStr)
    (h : k ∉ keys) :
    (s.removeKeys keys).lookupKey k = s.lookupKey k := by
  unfold BackendState.removeKeys BackendState.lookupKey
  rw [find?_key_filter_removed s.objects keys k h]

/-- C9: `remove_dir` performs exactly one backend removal, of the
singleton directory key, and its outcome depends only on the operator's
`remove` capability (no listing or emptiness check); against the concrete
backend it always succeeds, deleting exactly the directory key and leaving
every other key, children included, bound as before. -/
theorem remove_dir_single_key_spec (op op2 : Operator) (path : PathStr) (s : BackendState) :
    (OpenDalFileSystem.remove_dir op path =
        match op.remove [build_dir_path path] with
        | Except.ok u => Except.ok u
        | Except.error e => Except.error (opendal_error_to_errno e)) ∧
    (op.remove = op2.remove →
        OpenDalFileSystem.remove_dir op path = OpenDalFileSystem.remove_dir op2 path) ∧
    OpenDalFileSystem.remove_dirS s path =
      Except.ok ((), s.removeKeys [build_dir_path path]) ∧
    (∀ k, k ≠ build_dir_path path →
        (s.removeKeys [build_dir_path path]).lookupKey k = s.lookupKey k) := by
  refine ⟨rfl, ?_, rfl, ?_⟩
  · intro h
    unfold OpenDalFileSystem.remove_dir
    rw [h]
  · intro k hk
    apply lookupKey_removeKeys_ne
    simp [hk]

/-- Concrete backend state for the remove_dir witness: the directory key
"/x/" plus a child object "/x/f". -/
def s9 : BackendState :=
  { objects := [(['/', 'x', '/'], { content := [], lastModified := some 2 }),
                (['/', 'x', '/', 'f'], { content := [1], lastModified := some 3 })] }

/-- Witness for `remove_dir_single_key_spec`: removing "/x" succeeds even
though a child remains under "/x/", and the child is still bound after. -/
theorem remove_dir_single_key_spec_witness :
    OpenDalFileSystem.remove_dirS s9 ['/', 'x'] =
      Except.ok ((), s9.removeKeys [build_dir_path ['/', 'x']]) ∧
    (s9.removeKeys [build_dir_path ['/', 'x']]).lookupKey ['/', 'x', '/', 'f'] =
      some { content := [1], lastModified := some 3 } := by
  have h := remove_dir_single_key_spec opC1 opC1 ['/', 'x'] s9
  refine ⟨h.2.2.1, ?_⟩
  rw [h.2.2.2 ['/', 'x', '/', 'f'] (by decide)]
  rfl

/-- C4: `create_file` commits a zero-length object at the file key (a
writer opened and immediately closed) and then delegates to `open_file`;
on a fresh path the immediately following `stat` reports size 0 and the
open succeeds, with streams attached per the flags. -/
theorem create_file_zero_length_spec (s : BackendState) (now : Nat) (path : PathStr)
    (flags : OpenFileFlags)
    (hfresh : s.lookupKey path = none)
    (hfile : path.getLast? ≠ some '/') :
    ∃ file,
      OpenDalFileSystem.create_fileS s now path flags =
        RResult.ok (file, s.insertObj path { content := [], lastModified := some now }) ∧
      OpenDalFileSystem.open_file
        (s.insertObj path { content := [], lastModified := some now }).modelOperator
        now path flags = RResult.ok file ∧
      (∃ st, OpenDalFileSystem.stat
          (s.insertObj path { content := [], lastModified := some now }).modelOperator
          now path = Except.ok st ∧ st.size = 0 ∧ st.kind = FileType.RegularFile) ∧
      file.reader.isSome = flags.is_read ∧
      file.writer.isSome =
        (flags.is_write || flags.is_create || flags.is_append || flags.is_truncate) := by
  have hlook : (s.insertObj path { content := [], lastModified := some now }).lookupKey path =
      some { content := [], lastModified := some now } := by
    simp [BackendState.insertObj, BackendState.lookupKey, List.find?]
  have hstatm : (s.insertObj path { content := [], lastModified := some now }).modelStat path =
      Except.ok { content_length := 0, last_modified := some now, mode := EntryMode.FILE } := by
    simp [BackendState.modelStat, hlook, hfile]
  have hstat : OpenDalFileSystem.stat
      (s.insertObj path { content := [], lastModified := some now }).modelOperator now path =
      Except.ok { path := path, size := 0, kind := FileType.RegularFile,
                  ctime := now, atime := now, mtime := now } := by
    simp [OpenDalFileSystem.stat, BackendState.modelOperator, hstatm,
      OpenDalFileSystem.opendal_meta_to_file_stat, FileStat.new_file_filestat_with_path,
      opendal_filemode_to_filetype]
  have hof : OpenDalFileSystem.open_file
      (s.insertObj path { content := [], lastModified := some now }).modelOperator
      now path flags =
      RResult.ok
        { stat := { path := path, size := 0, kind := FileType.RegularFile,
                    ctime := now, atime := now, mtime := now },
          reader := if flags.is_read then some { reader := { content := [], fail := none } }
                    else none,
          writer := if flags.is_write || flags.is_create || flags.is_append || flags.is_truncate
                    then some { writer := { key := path, buffer := [], fail := none } }
                    else none } := by
    unfold OpenDalFileSystem.open_file
    rw [hstat]
    cases hr : flags.is_read <;>
      cases hw : (flags.is_write || flags.is_create || flags.is_append || flags.is_truncate) <;>
      simp [hr, hw, OpenedFile.new, BackendState.modelOperator, hlook]
  have hcf : OpenDalFileSystem.create_fileS s now path flags =
      match OpenDalFileSystem.open_file
          (s.insertObj path { content := [], lastModified := some now }).modelOperator
          now path flags with
      | RResult.ok file =>
          RResult.ok (file, s.insertObj path { content := [], lastModified := some now })
      | RResult.err e => RResult.err e
      | RResult.panicked => RResult.panicked := rfl
  rw [hof] at hcf
  refine ⟨_, hcf, hof, ⟨_, hstat, rfl, rfl⟩, ?_, ?_⟩
  · cases hr : flags.is_read <;> simp [hr]
  · cases hw : (flags.is_write || flags.is_create || flags.is_append || flags.is_truncate) <;>
      simp [hw]

/-- Witness for `create_file_zero_length_spec`: creating "/a" in the empty
backend with read-only flags. -/
theorem create_file_zero_length_spec_witness :
    ∃ file,
      OpenDalFileSystem.create_fileS { objects := [] } 7 ['/', 'a'] flagsReadOnly =
        RResult.ok (file,
          BackendState.insertObj { objects := [] } ['/', 'a']
            { content := [], lastModified := some 7 }) ∧
      (∃ st, OpenDalFileSystem.stat
          (BackendState.insertObj { objects := [] } ['/', 'a']
            { content := [], lastModified := some 7 }).modelOperator
          7 ['/', 'a'] = Except.ok st ∧ st.size = 0) ∧
      file.reader.isSome = true ∧
      file.writer.isSome = false := by
  obtain ⟨file, h1, _, ⟨st, h3, h4, _⟩, h5, h6⟩ :=
    create_file_zero_length_spec { objects := [] } 7 ['/', 'a'] flagsReadOnly rfl (by decide)
  exact ⟨file, h1, ⟨st, h3, h4⟩, h5, h6⟩

/-- Concrete writer handle used by the write counterexample and witness. -/
def writerCex : FileWriterImpl :=
  { writer := { key := ['/', 'a'], buffer := [], fail := none } }

/-- Helper: writing an n-byte zero buffer through the witness handle
returns the count n reduced mod 2^32. -/
theorem write_replicate_count (n : Nat) :
    FileWriterImpl.write writerCex 0 (List.replicate n 0) =
      Except.ok (n % 2 ^ 32,
        { writer := { key := ['/', 'a'], buffer := List.replicate n 0,
                      fail := none } }) := by
  simp [FileWriterImpl.write, OWriter.write, writerCex, List.length_replicate]

/-- C7 counterexample: writing a 2^32-byte buffer succeeds but the
returned count is 0 (the u32 cast of the length), not the length of the
data, which is nonzero. -/
theorem write_u32_truncation_cex :
    FileWriterImpl.write writerCex 0 (List.replicate (2 ^ 32) 0) =
      Except.ok (0,
        { writer := { key := ['/', 'a'], buffer := List.replicate (2 ^ 32) 0,
                      fail := none } }) ∧
    (List.replicate (2 ^ 32) (0 : Nat)).length ≠ 0 := by
  have h := write_replicate_count (2 ^ 32)
  rw [Nat.mod_self] at h
  refine ⟨h, ?_⟩
  rw [List.length_replicate]
  norm_num

/-- C7 (amended): `write` ignores the offset entirely (two calls differing
only in the offset are the same backend append), and on backend success
returns `data.len() as u32`, i.e. the length reduced mod 2^32 — exactly
the length whenever it fits in u32. -/
theorem write_ignores_offset_spec (f : FileWriterImpl) (off1 off2 : Nat) (data : List Nat) :
    FileWriterImpl.write f off1 data = FileWriterImpl.write f off2 data ∧
    (f.writer.fail = none →
      FileWriterImpl.write f off1 data =
        Except.ok (data.length % 2 ^ 32,
          { f with writer := { f.writer with buffer := f.writer.buffer ++ data } }) ∧
      (data.length < 2 ^ 32 →
        FileWriterImpl.write f off1 data =
          Except.ok (data.length,
            { f with writer := { f.writer with buffer := f.writer.buffer ++ data } }))) := by
  refine ⟨rfl, fun hn => ?_⟩
  have h1 : FileWriterImpl.write f off1 data =
      Except.ok (data.length % 2 ^ 32,
        { f with writer := { f.writer with buffer := f.writer.buffer ++ data } }) := by
    simp [FileWriterImpl.write, OWriter.write, hn]
  refine ⟨h1, fun hlt => ?_⟩
  rw [h1, Nat.mod_eq_of_lt hlt]

/-- Witness for `write_ignores_offset_spec`: a one-byte write on a healthy
stream at two different offsets appends identically and reports 1 byte. -/
theorem write_ignores_offset_spec_witness :
    FileWriterImpl.write writerCex 0 [7] = FileWriterImpl.write writerCex 5 [7] ∧
    FileWriterImpl.write writerCex 0 [7] =
      Except.ok (1, { writer := { key := ['/', 'a'], buffer := [7], fail := none } }) := by
  have h := write_ignores_offset_spec writerCex 0 5 [7]
  exact ⟨h.1, (h.2 rfl).2 (by norm_num)⟩

/-- C8 counterexample: at offset 2^64 - 1 with size 2 (both representable
machine values) the u64 computation of the range end wraps, so the range
requested from the backend is not the half-open range
[offset, offset + size). -/
theorem read_range_u64_wrap_cex :
    FileReaderImpl.requested_range (2 ^ 64 - 1) 2 = (2 ^ 64 - 1, 1) ∧
    (2 ^ 64 - 1) + 2 ≠ 1 ∧ 2 < 2 ^ 32 := by
  refine ⟨?_, by norm_num, by norm_num⟩
  show (2 ^ 64 - 1, ((2 ^ 64 - 1) + 2) % 2 ^ 64) = (2 ^ 64 - 1, 1)
  norm_num

/-- C8 (amended): when `offset + size` fits in u64, `read` requests
exactly the half-open byte range [offset, offset + size) from the backend
stream, returns exactly the in-range bytes — fewer than `size` only when
the range reaches past end-of-stream — and fails with the mapped error on
a failing stream or an offset beyond end-of-stream. -/
theorem read_exact_range_spec (f : FileReaderImpl) (offset size : Nat)
    (hno : offset + size < 2 ^ 64) :
    FileReaderImpl.requested_range offset size = (offset, offset + size) ∧
    (f.reader.fail = none → offset ≤ f.reader.content.length →
      FileReaderImpl.read f offset size =
        Except.ok ((f.reader.content.take (offset + size)).drop offset) ∧
      ∀ bytes, FileReaderImpl.read f offset size = Except.ok bytes →
        bytes.length = min size (f.reader.content.length - offset) ∧
        (bytes.length < size → f.reader.content.length < offset + size)) ∧
    (f.reader.fail = none → f.reader.content.length < offset →
      FileReaderImpl.read f offset size =
        Except.error (opendal_error_to_errno
          { kind := ErrorKind.RangeNotSatisfied, message := "read out of range" })) ∧
    (∀ e, f.reader.fail = some e →
      FileReaderImpl.read f offset size = Except.error (opendal_error_to_errno e)) := by
  have hm : (offset + size) % 2 ^ 64 = offset + size := Nat.mod_eq_of_lt hno
  refine ⟨?_, ?_, ?_, ?_⟩
  · unfold FileReaderImpl.requested_range
    rw [hm]
  · intro hfail hle
    have hr : FileReaderImpl.read f offset size =
        Except.ok ((f.reader.content.take (offset + size)).drop offset) := by
      unfold FileReaderImpl.read OReader.read
      simp only [hm]
      simp [hfail, Nat.not_lt.mpr hle]
    refine ⟨hr, fun bytes hb => ?_⟩
    rw [hr] at hb
    injection hb with hb2
    subst hb2
    have hlen : ((f.reader.content.take (offset + size)).drop offset).length =
        min (offset + size) f.reader.content.length - offset := by
      simp [List.length_drop, List.length_take]
    constructor
    · rw [hlen]
      omega
    · rw [hlen]
      omega
  · intro hfail hlt
    unfold FileReaderImpl.read OReader.read
    simp [hfail, hlt]
  · intro e hfail
    unfold FileReaderImpl.read OReader.read
    simp [hfail]

/-- Concrete reader handle used by the read witness. -/
def readerC8 : FileReaderImpl :=
  { reader := { content := [10, 11, 12, 13], fail := none } }

/-- Witness for `read_exact_range_spec`: reading 2 bytes at offset 1 of a
4-byte stream requests [1, 3) and returns exactly those bytes. -/
theorem read_exact_range_spec_witness :
    FileReaderImpl.requested_range 1 2 = (1, 3) ∧
    FileReaderImpl.read readerC8 1 2 = Except.ok [11, 12] := by
  have h := read_exact_range_spec readerC8 1 2 (by norm_num)
  exact ⟨h.1, (h.2.1 rfl (by decide)).1⟩

/-- C2: the error mapper depends only on the error kind, maps each of the
seven listed kinds to its errno (RateLimited to EBUSY, never ENOENT), and
maps every other kind to ENOENT. -/
theorem opendal_error_to_errno_table :
    (∀ e1 e2 : OError, e1.kind = e2.kind →
        opendal_error_to_errno e1 = opendal_error_to_errno e2) ∧
    (∀ e : OError, e.kind = ErrorKind.Unsupported →
        opendal_error_to_errno e = Errno.ofRaw libc.EOPNOTSUPP) ∧
    (∀ e : OError, e.kind = ErrorKind.IsADirectory →
        opendal_error_to_errno e = Errno.ofRaw libc.EISDIR) ∧
    (∀ e : OError, e.kind = ErrorKind.NotFound →
        opendal_error_to_errno e = Errno.ofRaw libc.ENOENT) ∧
    (∀ e : OError, e.kind = ErrorKind.PermissionDenied →
        opendal_error_to_errno e = Errno.ofRaw libc.EACCES) ∧
    (∀ e : OError, e.kind = ErrorKind.AlreadyExists →
        opendal_error_to_errno e = Errno.ofRaw libc.EEXIST) ∧
    (∀ e : OError, e.kind = ErrorKind.NotADirectory →
        opendal_error_to_errno e = Errno.ofRaw libc.ENOTDIR) ∧
    (∀ e : OError, e.kind = ErrorKind.RateLimited →
        opendal_error_to_errno e = Errno.ofRaw libc.EBUSY ∧
        opendal_error_to_errno e ≠ Errno.ofRaw libc.ENOENT) ∧
    (∀ e : OError, e.kind ≠ ErrorKind.Unsupported → e.kind ≠ ErrorKind.IsADirectory →
        e.kind ≠ ErrorKind.NotFound → e.kind ≠ ErrorKind.PermissionDenied →
        e.kind ≠ ErrorKind.AlreadyExists → e.kind ≠ ErrorKind.NotADirectory →
        e.kind ≠ ErrorKind.RateLimited →
        opendal_error_to_errno e = Errno.ofRaw libc.ENOENT) := by
  refine ⟨fun e1 e2 h => ?_, fun e h => ?_, fun e h => ?_, fun e h => ?_, fun e h => ?_,
    fun e h => ?_, fun e h => ?_, fun e h => ?_, fun e h1 h2 h3 h4 h5 h6 h7 => ?_⟩
  · unfold opendal_error_to_errno
    rw [h]
  · simp [opendal_error_to_errno, h]
  · simp [opendal_error_to_errno, h]
  · simp [opendal_error_to_errno, h]
  · simp [opendal_error_to_errno, h]
  · simp [opendal_error_to_errno, h]
  · simp [opendal_error_to_errno, h]
  · simp [opendal_error_to_errno, h, Errno.ofRaw, libc.EBUSY, libc.ENOENT]
  · cases hk : e.kind <;> simp_all [opendal_error_to_errno]

/-- Witness for `opendal_error_to_errno_table` at a concrete RateLimited
error. -/
theorem opendal_error_to_errno_table_witness :
    opendal_error_to_errno { kind := ErrorKind.RateLimited, message := "throttled" } =
        Errno.ofRaw libc.EBUSY ∧
    opendal_error_to_errno { kind := ErrorKind.RateLimited, message := "throttled" } ≠
        Errno.ofRaw libc.ENOENT :=
  opendal_error_to_errno_table.2.2.2.2.2.2.2.1
    { kind := ErrorKind.RateLimited, message := "throttled" } rfl

/-- C6: the metadata translator copies the backend content length into
`size`, classifies the kind as `Directory` exactly for the `DIR` entry
mode and `RegularFile` otherwise, sets `ctime` and `mtime` to the backend
last-modified time when present and to `now` otherwise, and always sets
`atime` to `now`. -/
theorem opendal_meta_to_file_stat_spec (now : Nat) (meta : Metadata) (fs : FileStat) :
    (OpenDalFileSystem.opendal_meta_to_file_stat now meta fs).size = meta.content_length ∧
    ((OpenDalFileSystem.opendal_meta_to_file_stat now meta fs).kind = FileType.Directory ↔
        meta.mode = EntryMode.DIR) ∧
    (meta.mode ≠ EntryMode.DIR →
        (OpenDalFileSystem.opendal_meta_to_file_stat now meta fs).kind = FileType.RegularFile) ∧
    (∀ t, meta.last_modified = some t →
        (OpenDalFileSystem.opendal_meta_to_file_stat now meta fs).ctime = t ∧
        (OpenDalFileSystem.opendal_meta_to_file_stat now meta fs).mtime = t) ∧
    (meta.last_modified = none →
        (OpenDalFileSystem.opendal_meta_to_file_stat now meta fs).ctime = now ∧
        (OpenDalFileSystem.opendal_meta_to_file_stat now meta fs).mtime = now) ∧
    (OpenDalFileSystem.opendal_meta_to_file_stat now meta fs).atime = now := by
  refine ⟨rfl, ?_, ?_, ?_, ?_, rfl⟩
  · cases hm : meta.mode <;>
      simp [OpenDalFileSystem.opendal_meta_to_file_stat, opendal_filemode_to_filetype, hm]
  · intro h
    cases hm : meta.mode <;>
      simp_all [OpenDalFileSystem.opendal_meta_to_file_stat, opendal_filemode_to_filetype]
  · intro t ht
    simp [OpenDalFileSystem.opendal_meta_to_file_stat, ht]
  · intro h
    simp [OpenDalFileSystem.opendal_meta_to_file_stat, h]

/-- Witness for `opendal_meta_to_file_stat_spec` at a concrete file
metadata record with a last-modified time. -/
theorem opendal_meta_to_file_stat_spec_witness :
    (OpenDalFileSystem.opendal_meta_to_file_stat 7
        { content_length := 42, last_modified := some 1000, mode := EntryMode.FILE }
        (FileStat.new_file_filestat_with_path ['/', 'a'] 0)).size = 42 ∧
    (OpenDalFileSystem.opendal_meta_to_file_stat 7
        { content_length := 42, last_modified := some 1000, mode := EntryMode.FILE }
        (FileStat.new_file_filestat_with_path ['/', 'a'] 0)).ctime = 1000 ∧
    (OpenDalFileSystem.opendal_meta_to_file_stat 7
        { content_length := 42, last_modified := some 1000, mode := EntryMode.FILE }
        (FileStat.new_file_filestat_with_path ['/', 'a'] 0)).atime = 7 := by
  have h := opendal_meta_to_file_stat_spec 7
    { content_length := 42, last_modified := some 1000, mode := EntryMode.FILE }
    (FileStat.new_file_filestat_with_path ['/', 'a'] 0)
  exact ⟨h.1, (h.2.2.2.1 1000 rfl).1, h.2.2.2.2.2⟩
